import Mathlib

/-!
Shallow embedding of the order price recalculation pipeline from
`saleor/order/calculations.py`.

Money amounts are exact decimals modelled as rationals; timestamps are
integers; plugin (pricing/tax capability) calls are functions returning
`Except CalcErr`, where `CalcErr.taxError` stands for the designated
`TaxError` and the other constructors stand for any other exception.
Persistence is modelled by the `Bool` flag in the orchestrator's result
(`true` exactly when `order.save` / `bulk_update` ran) together with
`persistedAfter`.
-/

namespace Saleor

/-- A money amount tagged with a currency, mirroring `prices.Money`
(exact decimal arithmetic, modelled by rationals). -/
structure Money where
  amount : ℚ
  currency : String
  deriving DecidableEq

/-- A net/gross pair of money amounts, mirroring `prices.TaxedMoney`. -/
structure TaxedMoney where
  net : Money
  gross : Money
  deriving DecidableEq

/-- Money addition (`prices` adds amounts; the currencies must agree and the
first one is kept). -/
def Money.add (a b : Money) : Money := ⟨a.amount + b.amount, a.currency⟩

instance : Add Money := ⟨Money.add⟩

/-- Componentwise addition of net/gross pairs. -/
def TaxedMoney.add (a b : TaxedMoney) : TaxedMoney := ⟨a.net + b.net, a.gross + b.gross⟩

instance : Add TaxedMoney := ⟨TaxedMoney.add⟩

/-- Adding a bare money amount to a net/gross pair adds it to both members
(as `prices.TaxedMoney.__add__` does for a `Money` operand). -/
def TaxedMoney.addMoney (a : TaxedMoney) (b : Money) : TaxedMoney := ⟨a.net + b, a.gross + b⟩

instance : HAdd TaxedMoney Money TaxedMoney := ⟨TaxedMoney.addMoney⟩

/-- Multiplying a net/gross pair by a quantity multiplies both amounts. -/
def TaxedMoney.mulNat (a : TaxedMoney) (n : ℕ) : TaxedMoney :=
  ⟨⟨a.net.amount * n, a.net.currency⟩, ⟨a.gross.amount * n, a.gross.currency⟩⟩

instance : HMul TaxedMoney Nat TaxedMoney := ⟨TaxedMoney.mulNat⟩

/-- Modelled from the spec: `zero_taxed_money` from `core/taxes.py` (not in the
given sources) — "a zero-valued taxed amount as the fold seed, in the order's
currency". -/
def zero_taxed_money (currency : String) : TaxedMoney :=
  ⟨⟨0, currency⟩, ⟨0, currency⟩⟩

/-- Order lifecycle statuses (enough constructors for every claim). -/
inductive OrderStatus where
  | draft
  | unconfirmed
  | unfulfilled
  | fulfilled
  | canceled
  | returned
  deriving DecidableEq

/-- Modelled from the spec: `ORDER_EDITABLE_STATUS` from `order/__init__.py`
(not in the given sources) — the editable status set guarding the pipeline
("orders past the editable lifecycle stage are immutable to this pipeline"). -/
def ORDER_EDITABLE_STATUS : List OrderStatus := [.draft, .unconfirmed]

/-- Discount type tag (`OrderDiscountType`); the recalculation pass applies
only the manual ones. -/
inductive OrderDiscountType where
  | manual
  | voucher
  deriving DecidableEq

/-- An order-level discount record. -/
structure OrderDiscount where
  type : OrderDiscountType
  amount : ℚ
  deriving DecidableEq

/-- An order line (`order.models.OrderLine`), restricted to the fields this
pipeline reads or writes.  `hasVariant` is true when the line's product
variant reference is still resolvable. -/
structure OrderLine where
  id : ℕ
  hasVariant : Bool
  quantity : ℕ
  unit_price : TaxedMoney
  undiscounted_unit_price : TaxedMoney
  total_price : TaxedMoney
  undiscounted_total_price : TaxedMoney
  unit_discount : Money
  tax_rate : ℚ
  deriving DecidableEq

/-- An order (`order.models.Order`), restricted to the fields this pipeline
reads or writes. -/
structure Order where
  status : OrderStatus
  currency : String
  total : TaxedMoney
  undiscounted_total : TaxedMoney
  shipping_price : TaxedMoney
  shipping_tax_rate : ℚ
  price_expiration_for_unconfirmed : ℤ
  discounts : List OrderDiscount
  deriving DecidableEq

/-- `order.interface.OrderTaxedPricesData`. -/
structure OrderTaxedPricesData where
  undiscounted_price : TaxedMoney
  price_with_discounts : TaxedMoney
  deriving DecidableEq

/-- One line of external tax data (`TaxLineData`). -/
structure TaxLineData where
  id : ℕ
  unit_net_amount : ℚ
  unit_gross_amount : ℚ
  total_net_amount : ℚ
  total_gross_amount : ℚ
  tax_rate : ℚ
  deriving DecidableEq

/-- External tax-authority data for a whole order (`TaxData`). -/
structure TaxData where
  total_net_amount : ℚ
  total_gross_amount : ℚ
  shipping_price_net_amount : ℚ
  shipping_price_gross_amount : ℚ
  shipping_tax_rate : ℚ
  lines : List TaxLineData
  deriving DecidableEq

/-- Errors a pass can raise: the designated `TaxError`, any other plugin
exception (`exn`), and the `KeyError` raised by the tax-data line lookup. -/
inductive CalcErr where
  | taxError
  | exn
  | keyError
  deriving DecidableEq

/-- The pricing/tax capability interface (`PluginsManager`), one function per
plugin call made by this module.  In the source the line calls also receive
the variant and product resolved from the line; here they receive the line
itself (carrying that information).  The tax-rate call receives the reference
price (`line_unit.undiscounted_price`) as in the source. -/
structure PluginsManager where
  calculate_order_line_unit : Order → OrderLine → Except CalcErr OrderTaxedPricesData
  calculate_order_line_total : Order → OrderLine → Except CalcErr OrderTaxedPricesData
  get_order_line_tax_rate : Order → OrderLine → TaxedMoney → Except CalcErr ℚ
  calculate_order_shipping : Order → Except CalcErr TaxedMoney
  get_order_shipping_tax_rate : Order → TaxedMoney → Except CalcErr ℚ
  get_taxes_for_order : Order → Option TaxData

/-- The two assignments after `calculate_order_line_unit` succeeds
(lines 38-39 of the source). -/
def lineAfterUnit (l : OrderLine) (line_unit : OrderTaxedPricesData) : OrderLine :=
  { l with undiscounted_unit_price := line_unit.undiscounted_price,
           unit_price := line_unit.price_with_discounts }

/-- The two assignments after `calculate_order_line_total` succeeds
(lines 44-45 of the source). -/
def lineAfterTotal (l : OrderLine) (line_total : OrderTaxedPricesData) : OrderLine :=
  { l with undiscounted_total_price := line_total.undiscounted_price,
           total_price := line_total.price_with_discounts }

/-- The body of the `try` block of `_recalculate_order_prices` for one line:
runs the three plugin calls in order, mutating the line after each success,
and reports the line as mutated so far together with the first raised error
(assignments made before the raise are kept, as in Python). -/
def recalcLineTry (m : PluginsManager) (o : Order) (l : OrderLine) :
    OrderLine × Option CalcErr :=
  match m.calculate_order_line_unit o l with
  | .error e => (l, some e)
  | .ok line_unit =>
    let l := lineAfterUnit l line_unit
    match m.calculate_order_line_total o l with
    | .error e => (l, some e)
    | .ok line_total =>
      let l := lineAfterTotal l line_total
      match m.get_order_line_tax_rate o l line_unit.undiscounted_price with
      | .error e => (l, some e)
      | .ok r => ({ l with tax_rate := r }, none)

/-- One iteration of the line loop of `_recalculate_order_prices`: lines with
no resolvable variant are skipped; `TaxError` is swallowed (`except TaxError:
pass`), keeping the assignments made before the raise; any other exception
propagates. -/
def recalcLine (m : PluginsManager) (o : Order) (l : OrderLine) :
    Except CalcErr OrderLine :=
  if l.hasVariant then
    match recalcLineTry m o l with
    | (l', none) => .ok l'
    | (l', some .taxError) => .ok l'
    | (_, some .exn) => .error .exn
    | (_, some .keyError) => .error .keyError
  else .ok l

/-- The line loop of `_recalculate_order_prices`, threading the running
subtotal (`subtotal += line.total_price` uses the possibly-updated line). -/
def recalcLinesLoop (m : PluginsManager) (o : Order) :
    List OrderLine → TaxedMoney → Except CalcErr (List OrderLine × TaxedMoney)
  | [], subtotal => .ok ([], subtotal)
  | l :: ls, subtotal =>
    match recalcLine m o l with
    | .error e => .error e
    | .ok l' =>
      match recalcLinesLoop m o ls (subtotal + l'.total_price) with
      | .error e => .error e
      | .ok (ls', subtotal') => .ok (l' :: ls', subtotal')

/-- The shipping `try` block of `_recalculate_order_prices` (lines 55-61):
assignments made before a raise are kept, the first error is reported. -/
def recalcShipping (m : PluginsManager) (o : Order) : Order × Option CalcErr :=
  match m.calculate_order_shipping o with
  | .error e => (o, some e)
  | .ok sp =>
    let o := { o with shipping_price := sp }
    match m.get_order_shipping_tax_rate o sp with
    | .error e => (o, some e)
    | .ok r => ({ o with shipping_tax_rate := r }, none)

/-- `_recalculate_order_prices`: per-line plugin pricing with `TaxError`
swallowed, subtotal accumulation from a zero seed in the order's currency,
shipping with the same fail-soft policy, and finally
`order.total = order.shipping_price + subtotal`. -/
def _recalculate_order_prices (m : PluginsManager) (o : Order)
    (lines : List OrderLine) : Except CalcErr (Order × List OrderLine) :=
  match recalcLinesLoop m o lines (zero_taxed_money o.currency) with
  | .error e => .error e
  | .ok (lines', subtotal) =>
    match recalcShipping m o with
    | (o', none) => .ok ({ o' with total := o'.shipping_price + subtotal }, lines')
    | (o', some .taxError) => .ok ({ o' with total := o'.shipping_price + subtotal }, lines')
    | (_, some .exn) => .error .exn
    | (_, some .keyError) => .error .keyError

/-- `create_taxed_money` from `_apply_tax_data`: reconstruct a net/gross pair
tagged with the order's currency. -/
def create_taxed_money (currency : String) (net gross : ℚ) : TaxedMoney :=
  ⟨⟨net, currency⟩, ⟨gross, currency⟩⟩

/-- The dict `{line.id: line for line in tax_data.lines}`: lookup by id,
later entries overriding earlier ones as in a Python dict comprehension. -/
def tax_lines_dict (tls : List TaxLineData) (i : ℕ) : Option TaxLineData :=
  tls.foldl (fun acc tl => if tl.id = i then some tl else acc) none

/-- The line loop of `_apply_tax_data`: every order line is looked up in the
tax-data dict (a missing entry raises `KeyError`) and its unit price, total
price and tax rate are overwritten from the tax-data line. -/
def apply_tax_lines (currency : String) (tls : List TaxLineData) :
    List OrderLine → Except CalcErr (List OrderLine)
  | [] => .ok []
  | l :: ls =>
    match tax_lines_dict tls l.id with
    | none => .error .keyError
    | some tl =>
      match apply_tax_lines currency tls ls with
      | .error e => .error e
      | .ok ls' =>
        .ok ({ l with
                unit_price := create_taxed_money currency tl.unit_net_amount tl.unit_gross_amount,
                total_price := create_taxed_money currency tl.total_net_amount tl.total_gross_amount,
                tax_rate := tl.tax_rate } :: ls')

/-- `_apply_tax_data`: overwrite order total, shipping price and shipping tax
rate from the tax data, then overwrite every line's prices by identity
lookup. -/
def _apply_tax_data (o : Order) (lines : List OrderLine) (td : TaxData) :
    Except CalcErr (Order × List OrderLine) :=
  let o := { o with
    total := create_taxed_money o.currency td.total_net_amount td.total_gross_amount,
    shipping_price := create_taxed_money o.currency td.shipping_price_net_amount
      td.shipping_price_gross_amount,
    shipping_tax_rate := td.shipping_tax_rate }
  match apply_tax_lines o.currency td.lines lines with
  | .error e => .error e
  | .ok lines' => .ok (o, lines')

/-- The first pass of `_recalculate_order_discounts` on one line:
`undiscounted_unit_price = unit_price + unit_discount`, and
`undiscounted_total_price` is that times the quantity when the unit discount
is non-zero (Python truthiness of a `Money` is non-zeroness of its amount),
otherwise the line's total price. -/
def reconcileLine (l : OrderLine) : OrderLine :=
  let uu := l.unit_price + l.unit_discount
  { l with undiscounted_unit_price := uu,
           undiscounted_total_price :=
             if l.unit_discount.amount ≠ 0 then uu * l.quantity else l.total_price }

/-- Modelled from the spec: `utils.update_order_discount_for_order` from
`order/utils.py` (not in the given sources) — applies one manual order-level
discount, "recomputing the order's discounted total downward by the
discount's amount, clamped so total never goes negative". -/
def update_order_discount_for_order (o : Order) (d : OrderDiscount) : Order :=
  let applied := min d.amount o.total.gross.amount
  { o with total := ⟨⟨o.total.net.amount - applied, o.total.net.currency⟩,
                     ⟨o.total.gross.amount - applied, o.total.gross.currency⟩⟩ }

/-- `_recalculate_order_discounts`: the per-line first pass, then application
of every manual order-level discount to the order. -/
def _recalculate_order_discounts (o : Order) (lines : List OrderLine) :
    Order × List OrderLine :=
  let lines := lines.map reconcileLine
  let manual := o.discounts.filter (fun d => d.type = OrderDiscountType.manual)
  (manual.foldl update_order_discount_for_order o, lines)

/-- `fetch_order_prices_if_expired`: the staleness-gated orchestrator.
`now` stands for `timezone.now()` and `ttl` for `settings.ORDER_PRICES_TTL`;
the caller always supplies the line list.  The `Bool` in the result is true
exactly when the save / bulk-update of the stale branch ran. -/
def fetch_order_prices_if_expired (m : PluginsManager) (now ttl : ℤ)
    (order : Order) (lines : List OrderLine) (force_update : Bool) :
    Except CalcErr (Order × List OrderLine × Bool) :=
  if order.status ∉ ORDER_EDITABLE_STATUS then .ok (order, lines, false)
  else if force_update = false ∧ order.price_expiration_for_unconfirmed > now then
    .ok (order, lines, false)
  else
    let order1 := { order with price_expiration_for_unconfirmed := now + ttl }
    match _recalculate_order_prices m order1 lines with
    | .error e => .error e
    | .ok (order2, lines2) =>
      match (match m.get_taxes_for_order order2 with
             | some td => _apply_tax_data order2 lines2 td
             | none => .ok (order2, lines2)) with
      | .error e => .error e
      | .ok (order3, lines3) =>
        let r := _recalculate_order_discounts order3 lines3
        .ok (r.1, r.2, true)

/-- The persisted order/line state after a call: the transaction commits the
new values exactly when the save ran; an exception aborts the pass with the
stored state untouched. -/
def persistedAfter (dbOrder : Order) (dbLines : List OrderLine)
    (r : Except CalcErr (Order × List OrderLine × Bool)) : Order × List OrderLine :=
  match r with
  | .ok (o, ls, true) => (o, ls)
  | _ => (dbOrder, dbLines)

/-- Modelled from the spec: the minor-unit precision of a currency
(`get_currency_fraction`, not in the given sources) — "e.g., 2 decimal places
for most currencies"; zero-decimal currencies have none. -/
def get_currency_fraction (currency : String) : ℕ :=
  if currency = "JPY" ∨ currency = "KRW" ∨ currency = "VND" then 0 else 2

/-- Round a rational to an integer, ties to even (the rounding of Python's
`Decimal.quantize` under the default context). -/
def roundHalfEven (q : ℚ) : ℤ :=
  let f := ⌊q⌋
  let frac := q - (f : ℚ)
  if frac < 1 / 2 then f
  else if 1 / 2 < frac then f + 1
  else if f % 2 = 0 then f else f + 1

/-- Modelled from the spec: `quantize_price` from `core/prices.py` (not in
the given sources) on a bare amount — round to the currency's minor-unit
precision. -/
def quantize_amount (currency : String) (a : ℚ) : ℚ :=
  let d := get_currency_fraction currency
  (roundHalfEven (a * 10 ^ d) : ℚ) / 10 ^ d

/-- `quantize_price` on a net/gross pair: both members quantized. -/
def quantize_price (p : TaxedMoney) (currency : String) : TaxedMoney :=
  ⟨⟨quantize_amount currency p.net.amount, p.net.currency⟩,
   ⟨quantize_amount currency p.gross.amount, p.gross.currency⟩⟩

/-- `order_total`: run the orchestrator, then return the (possibly refreshed)
order's total quantized to the currency captured before the call. -/
def order_total (m : PluginsManager) (now ttl : ℤ) (order : Order)
    (lines : List OrderLine) (force_update : Bool) : Except CalcErr TaxedMoney :=
  let currency := order.currency
  match fetch_order_prices_if_expired m now ttl order lines force_update with
  | .error e => .error e
  | .ok (o, _, _) => .ok (quantize_price o.total currency)

/-- Project the refreshed order out of an orchestrator result. -/
def fetchResultOrder (r : Except CalcErr (Order × List OrderLine × Bool)) :
    Option Order :=
  match r with
  | .ok (o, _, _) => some o
  | .error _ => none

/-- Project the refreshed lines out of an orchestrator result. -/
def fetchResultLines (r : Except CalcErr (Order × List OrderLine × Bool)) :
    Option (List OrderLine) :=
  match r with
  | .ok (_, ls, _) => some ls
  | .error _ => none

/-- Project the saved flag out of an orchestrator result. -/
def fetchResultSaved (r : Except CalcErr (Order × List OrderLine × Bool)) :
    Option Bool :=
  match r with
  | .ok (_, _, s) => some s
  | .error _ => none

/-- Project the lines out of an engine-pass result. -/
def recalcResultLines (r : Except CalcErr (Order × List OrderLine)) :
    Option (List OrderLine) :=
  match r with
  | .ok (_, ls) => some ls
  | .error _ => none

/-- Project the order out of an engine-pass result. -/
def recalcResultOrder (r : Except CalcErr (Order × List OrderLine)) :
    Option Order :=
  match r with
  | .ok (o, _) => some o
  | .error _ => none

/-- The spec's invariant: the order total is the shipping price plus the sum
of the lines' total prices, folded from a zero seed in the given currency. -/
def orderTotalInvariant (currency : String) (o : Order) (ls : List OrderLine) : Prop :=
  o.total = o.shipping_price + ls.foldl (fun s l => s + l.total_price) (zero_taxed_money currency)

instance (currency : String) (o : Order) (ls : List OrderLine) :
    Decidable (orderTotalInvariant currency o ls) := by
  unfold orderTotalInvariant; infer_instance

/-- A concrete order line used by the concrete evaluations: unit price 8.00,
unit discount 2.00, quantity 3, in a two-decimal currency. -/
def lineBase : OrderLine :=
  { id := 1, hasVariant := true, quantity := 3,
    unit_price := ⟨⟨8, "USD"⟩, ⟨8, "USD"⟩⟩,
    undiscounted_unit_price := ⟨⟨10, "USD"⟩, ⟨10, "USD"⟩⟩,
    total_price := ⟨⟨24, "USD"⟩, ⟨24, "USD"⟩⟩,
    undiscounted_total_price := ⟨⟨30, "USD"⟩, ⟨30, "USD"⟩⟩,
    unit_discount := ⟨2, "USD"⟩,
    tax_rate := 23 / 100 }

/-- A concrete editable order with an already-expired price timestamp and no
discounts. -/
def orderBase : Order :=
  { status := .unconfirmed, currency := "USD",
    total := ⟨⟨29, "USD"⟩, ⟨29, "USD"⟩⟩,
    undiscounted_total := ⟨⟨35, "USD"⟩, ⟨35, "USD"⟩⟩,
    shipping_price := ⟨⟨5, "USD"⟩, ⟨5, "USD"⟩⟩,
    shipping_tax_rate := 23 / 100,
    price_expiration_for_unconfirmed := 0,
    discounts := [] }

/-- A concrete manager: every pricing call succeeds with fixed values and
external tax data is absent. -/
def mgrBase : PluginsManager where
  calculate_order_line_unit := fun _ _ =>
    .ok ⟨⟨⟨10, "USD"⟩, ⟨12, "USD"⟩⟩, ⟨⟨8, "USD"⟩, ⟨9, "USD"⟩⟩⟩
  calculate_order_line_total := fun _ _ =>
    .ok ⟨⟨⟨30, "USD"⟩, ⟨36, "USD"⟩⟩, ⟨⟨24, "USD"⟩, ⟨27, "USD"⟩⟩⟩
  get_order_line_tax_rate := fun _ _ _ => .ok (23 / 100)
  calculate_order_shipping := fun _ => .ok ⟨⟨5, "USD"⟩, ⟨6, "USD"⟩⟩
  get_order_shipping_tax_rate := fun _ _ => .ok (23 / 100)
  get_taxes_for_order := fun _ => none

/-- Tax data covering line id 1. -/
def tdBase : TaxData :=
  { total_net_amount := 60, total_gross_amount := 73,
    shipping_price_net_amount := 4, shipping_price_gross_amount := 5,
    shipping_tax_rate := 1 / 4,
    lines := [⟨1, 11, 13, 33, 39, 1 / 4⟩] }

/-- Tax data with no entry for any line. -/
def tdMiss : TaxData := { tdBase with lines := [] }

/-- Tax data whose order-level totals are not the sum of its shipping and
line figures. -/
def tdBad : TaxData :=
  { total_net_amount := 100, total_gross_amount := 100,
    shipping_price_net_amount := 0, shipping_price_gross_amount := 0,
    shipping_tax_rate := 0,
    lines := [⟨1, 10, 10, 50, 50, 0⟩] }

/-- A manager returning tax data that lacks an entry for every line. -/
def mgrTdMiss : PluginsManager :=
  { mgrBase with get_taxes_for_order := fun _ => some tdMiss }

/-- A manager returning internally inconsistent tax data. -/
def mgrTdBad : PluginsManager :=
  { mgrBase with get_taxes_for_order := fun _ => some tdBad }

/-- A manager whose line tax-rate call raises the designated tax error while
the unit-price call succeeds with a clearly different price. -/
def mgrC2 : PluginsManager :=
  { mgrBase with
      calculate_order_line_unit := fun _ _ =>
        .ok ⟨⟨⟨10, "USD"⟩, ⟨10, "USD"⟩⟩, ⟨⟨5, "USD"⟩, ⟨5, "USD"⟩⟩⟩,
      get_order_line_tax_rate := fun _ _ _ => .error .taxError }

/-- A manager whose line total-price call raises the designated tax error
after the unit-price call succeeded with a clearly different price. -/
def mgrTotalFail : PluginsManager :=
  { mgrBase with
      calculate_order_line_unit := fun _ _ =>
        .ok ⟨⟨⟨10, "USD"⟩, ⟨10, "USD"⟩⟩, ⟨⟨5, "USD"⟩, ⟨5, "USD"⟩⟩⟩,
      calculate_order_line_total := fun _ _ => .error .taxError }

/-- A manager whose shipping call raises a non-tax exception. -/
def mgrExn : PluginsManager :=
  { mgrBase with calculate_order_shipping := fun _ => .error .exn }

/-- The unit-price data `mgrC2` returns. -/
def luC2 : OrderTaxedPricesData :=
  ⟨⟨⟨10, "USD"⟩, ⟨10, "USD"⟩⟩, ⟨⟨5, "USD"⟩, ⟨5, "USD"⟩⟩⟩

/-- The total-price data `mgrC2` returns. -/
def ltC2 : OrderTaxedPricesData :=
  ⟨⟨⟨30, "USD"⟩, ⟨36, "USD"⟩⟩, ⟨⟨24, "USD"⟩, ⟨27, "USD"⟩⟩⟩

/-- The orchestrator run on the base scenario (expired order, no tax data). -/
def rFetchBase : Except CalcErr (Order × List OrderLine × Bool) :=
  fetch_order_prices_if_expired mgrBase 0 5 orderBase [lineBase] false

/-- What the engine pass makes of `lineBase` under the base pricing calls. -/
def lineBaseR : OrderLine :=
  { id := 1, hasVariant := true, quantity := 3,
    unit_price := ⟨⟨8, "USD"⟩, ⟨9, "USD"⟩⟩,
    undiscounted_unit_price := ⟨⟨10, "USD"⟩, ⟨12, "USD"⟩⟩,
    total_price := ⟨⟨24, "USD"⟩, ⟨27, "USD"⟩⟩,
    undiscounted_total_price := ⟨⟨30, "USD"⟩, ⟨36, "USD"⟩⟩,
    unit_discount := ⟨2, "USD"⟩,
    tax_rate := 23 / 100 }

/-- What the engine pass makes of `orderBase` under the base pricing calls
(expiration advanced to 5, shipping 5/6, total shipping plus the line). -/
def orderBaseR : Order :=
  { status := .unconfirmed, currency := "USD",
    total := ⟨⟨29, "USD"⟩, ⟨33, "USD"⟩⟩,
    undiscounted_total := ⟨⟨35, "USD"⟩, ⟨35, "USD"⟩⟩,
    shipping_price := ⟨⟨5, "USD"⟩, ⟨6, "USD"⟩⟩,
    shipping_tax_rate := 23 / 100,
    price_expiration_for_unconfirmed := 5,
    discounts := [] }

/-- What the discount-reconciliation pass then makes of `lineBaseR`. -/
def lineBaseF : OrderLine :=
  { lineBaseR with
      undiscounted_unit_price := ⟨⟨10, "USD"⟩, ⟨11, "USD"⟩⟩,
      undiscounted_total_price := ⟨⟨30, "USD"⟩, ⟨33, "USD"⟩⟩ }

/-- The committed order of the inconsistent-tax-data scenario: the tax-data
figures are copied verbatim over the engine output. -/
def orderBadF : Order :=
  { orderBaseR with
      total := ⟨⟨100, "USD"⟩, ⟨100, "USD"⟩⟩,
      shipping_price := ⟨⟨0, "USD"⟩, ⟨0, "USD"⟩⟩,
      shipping_tax_rate := 0 }

/-- The committed line of the inconsistent-tax-data scenario. -/
def lineBadF : OrderLine :=
  { lineBaseR with
      unit_price := ⟨⟨10, "USD"⟩, ⟨10, "USD"⟩⟩,
      total_price := ⟨⟨50, "USD"⟩, ⟨50, "USD"⟩⟩,
      tax_rate := 0,
      undiscounted_unit_price := ⟨⟨12, "USD"⟩, ⟨12, "USD"⟩⟩,
      undiscounted_total_price := ⟨⟨36, "USD"⟩, ⟨36, "USD"⟩⟩ }

/-- A non-editable order whose stored total carries a third decimal digit. -/
def orderQ : Order :=
  { orderBase with
      status := .canceled,
      total := ⟨⟨19995 / 1000, "USD"⟩, ⟨19995 / 1000, "USD"⟩⟩ }

theorem money_add_def (a b : Money) : a + b = ⟨a.amount + b.amount, a.currency⟩ := rfl

theorem taxed_money_add_def (a b : TaxedMoney) : a + b = ⟨a.net + b.net, a.gross + b.gross⟩ := rfl

theorem taxed_money_add_money_def (a : TaxedMoney) (b : Money) :
    a + b = ⟨a.net + b, a.gross + b⟩ := rfl

theorem taxed_money_mul_nat_def (a : TaxedMoney) (n : ℕ) :
    a * n = ⟨⟨a.net.amount * n, a.net.currency⟩, ⟨a.gross.amount * n, a.gross.currency⟩⟩ := rfl

theorem recalcLine_not_taxError (m : PluginsManager) (o : Order) (l : OrderLine) :
    recalcLine m o l ≠ .error .taxError := by
  unfold recalcLine
  split
  · split <;> simp
  · simp

theorem recalcLinesLoop_spec (m : PluginsManager) (o : Order) :
    ∀ (ls : List OrderLine) (sub : TaxedMoney) (ls' : List OrderLine) (sub' : TaxedMoney),
      recalcLinesLoop m o ls sub = .ok (ls', sub') →
      List.Forall₂ (fun l l' => recalcLine m o l = .ok l') ls ls' ∧
        sub' = ls'.foldl (fun s l => s + l.total_price) sub := by
  intro ls
  induction ls with
  | nil =>
    intro sub ls' sub' h
    simp only [recalcLinesLoop, Except.ok.injEq, Prod.mk.injEq] at h
    obtain ⟨rfl, rfl⟩ := h
    exact ⟨List.Forall₂.nil, rfl⟩
  | cons l ls ih =>
    intro sub ls' sub' h
    unfold recalcLinesLoop at h
    cases hl : recalcLine m o l with
    | error e => rw [hl] at h; exact Except.noConfusion h
    | ok l1 =>
      simp only [hl] at h
      cases hr : recalcLinesLoop m o ls (sub + l1.total_price) with
      | error e => rw [hr] at h; exact Except.noConfusion h
      | ok p =>
        rcases p with ⟨ls1, sub1⟩
        simp only [hr, Except.ok.injEq, Prod.mk.injEq] at h
        obtain ⟨rfl, rfl⟩ := h
        obtain ⟨hfa, hsub⟩ := ih (sub + l1.total_price) ls1 sub1 hr
        exact ⟨List.Forall₂.cons hl hfa, hsub⟩

theorem recalcLinesLoop_not_taxError (m : PluginsManager) (o : Order) :
    ∀ (ls : List OrderLine) (sub : TaxedMoney),
      recalcLinesLoop m o ls sub ≠ .error .taxError := by
  intro ls
  induction ls with
  | nil => intro sub; simp [recalcLinesLoop]
  | cons l ls ih =>
    intro sub
    unfold recalcLinesLoop
    cases hl : recalcLine m o l with
    | error e =>
      cases e with
      | taxError => exact absurd hl (recalcLine_not_taxError m o l)
      | exn => simp [hl]
      | keyError => simp [hl]
    | ok l1 =>
      cases hr : recalcLinesLoop m o ls (sub + l1.total_price) with
      | error e =>
        cases e with
        | taxError => exact absurd hr (ih (sub + l1.total_price))
        | exn => simp [hl, hr]
        | keyError => simp [hl, hr]
      | ok p => rcases p with ⟨ls1, sub1⟩; simp [hl, hr]

theorem recalcShipping_frame (m : PluginsManager) (o : Order) :
    (recalcShipping m o).1.status = o.status ∧
    (recalcShipping m o).1.currency = o.currency ∧
    (recalcShipping m o).1.price_expiration_for_unconfirmed
      = o.price_expiration_for_unconfirmed ∧
    (recalcShipping m o).1.discounts = o.discounts ∧
    (recalcShipping m o).1.total = o.total := by
  unfold recalcShipping
  cases hsp : m.calculate_order_shipping o with
  | error e => simp [hsp]
  | ok sp =>
    cases hr : m.get_order_shipping_tax_rate { o with shipping_price := sp } sp with
    | error e => simp [hsp, hr]
    | ok r => simp [hsp, hr]

theorem recalc_prices_spec (m : PluginsManager) (o o' : Order)
    (ls ls' : List OrderLine)
    (h : _recalculate_order_prices m o ls = .ok (o', ls')) :
    List.Forall₂ (fun l l' => recalcLine m o l = .ok l') ls ls' ∧
    o'.shipping_price = (recalcShipping m o).1.shipping_price ∧
    o'.shipping_tax_rate = (recalcShipping m o).1.shipping_tax_rate ∧
    o'.status = o.status ∧ o'.currency = o.currency ∧
    o'.price_expiration_for_unconfirmed = o.price_expiration_for_unconfirmed ∧
    o'.discounts = o.discounts ∧
    o'.total = o'.shipping_price
      + ls'.foldl (fun s l => s + l.total_price) (zero_taxed_money o.currency) := by
  unfold _recalculate_order_prices at h
  cases hl : recalcLinesLoop m o ls (zero_taxed_money o.currency) with
  | error e => rw [hl] at h; exact Except.noConfusion h
  | ok p =>
    rcases p with ⟨ls1, sub1⟩
    obtain ⟨hfa, hsub⟩ := recalcLinesLoop_spec m o ls (zero_taxed_money o.currency) ls1 sub1 hl
    obtain ⟨hst, hcur, hexp, hdisc, _⟩ := recalcShipping_frame m o
    rcases hsh : recalcShipping m o with ⟨o1, e?⟩
    rw [hsh] at hst hcur hexp hdisc
    simp only [hl, hsh] at h
    cases e? with
    | none =>
      simp only [Except.ok.injEq, Prod.mk.injEq] at h
      obtain ⟨rfl, rfl⟩ := h
      refine ⟨hfa, rfl, rfl, hst, hcur, hexp, hdisc, ?_⟩
      simp [hsub]
    | some e =>
      cases e with
      | taxError =>
        simp only [Except.ok.injEq, Prod.mk.injEq] at h
        obtain ⟨rfl, rfl⟩ := h
        refine ⟨hfa, rfl, rfl, hst, hcur, hexp, hdisc, ?_⟩
        simp [hsub]
      | exn => exact Except.noConfusion h
      | keyError => exact Except.noConfusion h

theorem recalc_prices_not_taxError (m : PluginsManager) (o : Order)
    (ls : List OrderLine) :
    _recalculate_order_prices m o ls ≠ .error .taxError := by
  unfold _recalculate_order_prices
  cases hl : recalcLinesLoop m o ls (zero_taxed_money o.currency) with
  | error e =>
    cases e with
    | taxError => exact absurd hl (recalcLinesLoop_not_taxError m o ls _)
    | exn => simp
    | keyError => simp
  | ok p =>
    rcases p with ⟨ls1, sub1⟩
    rcases hsh : recalcShipping m o with ⟨o1, e?⟩
    cases e? with
    | none => simp [hl, hsh]
    | some e => cases e <;> simp [hl, hsh]

theorem apply_tax_lines_missing (currency : String) (tls : List TaxLineData) :
    ∀ (ls : List OrderLine), (∃ l ∈ ls, tax_lines_dict tls l.id = none) →
      apply_tax_lines currency tls ls = .error .keyError := by
  intro ls
  induction ls with
  | nil => rintro ⟨l, hl, _⟩; cases hl
  | cons l ls ih =>
    rintro ⟨l0, hl0, hnone⟩
    unfold apply_tax_lines
    rcases List.mem_cons.mp hl0 with rfl | hmem
    · rw [hnone]
    · cases hd : tax_lines_dict tls l.id with
      | none => rfl
      | some tl => rw [ih ⟨l0, hmem, hnone⟩]

theorem apply_tax_lines_all (currency : String) (tls : List TaxLineData) :
    ∀ (ls : List OrderLine), (∀ l ∈ ls, (tax_lines_dict tls l.id).isSome) →
      ∃ ls', apply_tax_lines currency tls ls = .ok ls' ∧
        List.Forall₂ (fun l l' => ∃ tl, tax_lines_dict tls l.id = some tl ∧
          l' = { l with
                  unit_price := create_taxed_money currency tl.unit_net_amount
                    tl.unit_gross_amount,
                  total_price := create_taxed_money currency tl.total_net_amount
                    tl.total_gross_amount,
                  tax_rate := tl.tax_rate }) ls ls' := by
  intro ls
  induction ls with
  | nil => intro _; exact ⟨[], rfl, List.Forall₂.nil⟩
  | cons l ls ih =>
    intro hall
    obtain ⟨ls', hok, hfa⟩ := ih (fun l hl => hall l (List.mem_cons_of_mem _ hl))
    have hhead := hall l (List.mem_cons_self l ls)
    cases hd : tax_lines_dict tls l.id with
    | none => rw [hd] at hhead; cases hhead
    | some tl =>
      refine ⟨_, ?_, List.Forall₂.cons ⟨tl, hd, rfl⟩ hfa⟩
      unfold apply_tax_lines
      rw [hd, hok]

theorem apply_tax_data_frame (o o' : Order) (ls ls' : List OrderLine) (td : TaxData)
    (h : _apply_tax_data o ls td = .ok (o', ls')) :
    o'.status = o.status ∧ o'.currency = o.currency ∧
    o'.price_expiration_for_unconfirmed = o.price_expiration_for_unconfirmed ∧
    o'.discounts = o.discounts := by
  unfold _apply_tax_data at h
  dsimp only at h
  cases hap : apply_tax_lines o.currency td.lines ls with
  | error e => rw [hap] at h; exact Except.noConfusion h
  | ok ls1 =>
    simp only [hap, Except.ok.injEq, Prod.mk.injEq] at h
    obtain ⟨rfl, rfl⟩ := h
    exact ⟨rfl, rfl, rfl, rfl⟩

theorem update_order_discount_frame (o : Order) (d : OrderDiscount) :
    (update_order_discount_for_order o d).status = o.status ∧
    (update_order_discount_for_order o d).currency = o.currency ∧
    (update_order_discount_for_order o d).price_expiration_for_unconfirmed
      = o.price_expiration_for_unconfirmed ∧
    (update_order_discount_for_order o d).shipping_price = o.shipping_price ∧
    (update_order_discount_for_order o d).shipping_tax_rate = o.shipping_tax_rate :=
  ⟨rfl, rfl, rfl, rfl, rfl⟩

theorem discounts_foldl_frame (ds : List OrderDiscount) :
    ∀ (o : Order),
      (ds.foldl update_order_discount_for_order o).status = o.status ∧
      (ds.foldl update_order_discount_for_order o).currency = o.currency ∧
      (ds.foldl update_order_discount_for_order o).price_expiration_for_unconfirmed
        = o.price_expiration_for_unconfirmed ∧
      (ds.foldl update_order_discount_for_order o).shipping_price = o.shipping_price ∧
      (ds.foldl update_order_discount_for_order o).shipping_tax_rate
        = o.shipping_tax_rate := by
  induction ds with
  | nil => intro o; exact ⟨rfl, rfl, rfl, rfl, rfl⟩
  | cons d ds ih =>
    intro o
    obtain ⟨h1, h2, h3, h4, h5⟩ := ih (update_order_discount_for_order o d)
    exact ⟨h1, h2, h3, h4, h5⟩

theorem recalc_discounts_spec (o : Order) (ls : List OrderLine) :
    (_recalculate_order_discounts o ls).2 = ls.map reconcileLine ∧
    (_recalculate_order_discounts o ls).1.status = o.status ∧
    (_recalculate_order_discounts o ls).1.currency = o.currency ∧
    (_recalculate_order_discounts o ls).1.price_expiration_for_unconfirmed
      = o.price_expiration_for_unconfirmed ∧
    (_recalculate_order_discounts o ls).1.shipping_price = o.shipping_price ∧
    (o.discounts.filter (fun d => d.type = OrderDiscountType.manual) = [] →
      (_recalculate_order_discounts o ls).1 = o) := by
  obtain ⟨h1, h2, h3, h4, h5⟩ :=
    discounts_foldl_frame
      (o.discounts.filter (fun d => d.type = OrderDiscountType.manual)) o
  refine ⟨rfl, h1, h2, h3, h4, ?_⟩
  intro hempty
  unfold _recalculate_order_discounts
  rw [hempty]
  rfl

theorem reconcile_foldl_total (ls : List OrderLine) :
    ∀ (z : TaxedMoney),
      (ls.map reconcileLine).foldl (fun s l => s + l.total_price) z
        = ls.foldl (fun s l => s + l.total_price) z := by
  induction ls with
  | nil => intro z; rfl
  | cons l ls ih =>
    intro z
    have htp : (reconcileLine l).total_price = l.total_price := rfl
    simp only [List.map_cons, List.foldl_cons, htp]
    exact ih _

theorem fetch_stale_shape (m : PluginsManager) (now ttl : ℤ) (order : Order)
    (lines : List OrderLine) (force_update : Bool)
    (o' : Order) (l' : List OrderLine) (s : Bool)
    (hed : order.status ∈ ORDER_EDITABLE_STATUS)
    (hstale : force_update = true ∨ order.price_expiration_for_unconfirmed ≤ now)
    (h : fetch_order_prices_if_expired m now ttl order lines force_update
          = .ok (o', l', s)) :
    s = true ∧ o'.status = order.status ∧
      o'.price_expiration_for_unconfirmed = now + ttl := by
  have hnc : ¬(force_update = false ∧ order.price_expiration_for_unconfirmed > now) := by
    rcases hstale with hf | hle
    · rintro ⟨h1, _⟩; rw [hf] at h1; cases h1
    · rintro ⟨_, h2⟩; exact absurd h2 (not_lt.mpr hle)
  unfold fetch_order_prices_if_expired at h
  rw [if_neg (not_not_intro hed), if_neg hnc] at h
  dsimp only at h
  cases hrc : _recalculate_order_prices m
      { order with price_expiration_for_unconfirmed := now + ttl } lines with
  | error e => rw [hrc] at h; exact Except.noConfusion h
  | ok p2 =>
    rcases p2 with ⟨o2, l2⟩
    simp only [hrc] at h
    obtain ⟨_, _, _, hst2, _, hexp2, _, _⟩ := recalc_prices_spec m _ o2 lines l2 hrc
    have hmid : ∀ (o3 : Order) (l3 : List OrderLine),
        (match m.get_taxes_for_order o2 with
         | some td => _apply_tax_data o2 l2 td
         | none => .ok (o2, l2)) = .ok (o3, l3) →
        o3.status = o2.status ∧
          o3.price_expiration_for_unconfirmed
            = o2.price_expiration_for_unconfirmed := by
      intro o3 l3 hm
      cases htd : m.get_taxes_for_order o2 with
      | none =>
        simp only [htd, Except.ok.injEq, Prod.mk.injEq] at hm
        obtain ⟨rfl, rfl⟩ := hm
        exact ⟨rfl, rfl⟩
      | some td =>
        simp only [htd] at hm
        obtain ⟨ha, _, hb, _⟩ := apply_tax_data_frame o2 o3 l2 l3 td hm
        exact ⟨ha, hb⟩
    cases hm : (match m.get_taxes_for_order o2 with
                | some td => _apply_tax_data o2 l2 td
                | none => .ok (o2, l2)) with
    | error e => rw [hm] at h; exact Except.noConfusion h
    | ok p3 =>
      rcases p3 with ⟨o3, l3⟩
      simp only [hm] at h
      obtain ⟨hst3, hexp3⟩ := hmid o3 l3 hm
      obtain ⟨_, hst4, _, hexp4, _, _⟩ := recalc_discounts_spec o3 l3
      simp only [Except.ok.injEq, Prod.mk.injEq] at h
      obtain ⟨rfl, rfl, rfl⟩ := h
      refine ⟨rfl, ?_, ?_⟩
      · rw [hst4, hst3, hst2]
      · rw [hexp4, hexp3, hexp2]

theorem stale_cond_neg (force_update : Bool) (expiration now : ℤ)
    (hstale : force_update = true ∨ expiration ≤ now) :
    ¬(force_update = false ∧ expiration > now) := by
  rcases hstale with hf | hle
  · rintro ⟨h1, _⟩; rw [hf] at h1; cases h1
  · rintro ⟨_, h2⟩; exact absurd h2 (not_lt.mpr hle)

/-- C8: for every order whose status is outside the editable set,
`fetch_order_prices_if_expired` returns the order and lines exactly as given
(no field changed, nothing saved), for every manager (hence invoking no
pricing or tax capability), every clock value, and both values of the force
flag. -/
theorem C8_non_editable_short_circuit (m : PluginsManager) (now ttl : ℤ)
    (order : Order) (lines : List OrderLine) (force_update : Bool)
    (h : order.status ∉ ORDER_EDITABLE_STATUS) :
    fetch_order_prices_if_expired m now ttl order lines force_update
      = .ok (order, lines, false) := by
  unfold fetch_order_prices_if_expired
  rw [if_pos h]

/-- Witness for C8: a canceled order with an expired timestamp and a forced
update is still returned unchanged. -/
theorem C8_witness :
    ({ orderBase with status := OrderStatus.canceled }).status ∉ ORDER_EDITABLE_STATUS ∧
    fetch_order_prices_if_expired mgrBase 7 5
        { orderBase with status := OrderStatus.canceled } [lineBase] true
      = .ok ({ orderBase with status := OrderStatus.canceled }, [lineBase], false) :=
  ⟨by decide,
   C8_non_editable_short_circuit mgrBase 7 5
     { orderBase with status := OrderStatus.canceled } [lineBase] true (by decide)⟩

/-- C5 (amended): for every editable order, when the force flag is off and
`now` is STRICTLY before the expiration timestamp, the orchestrator treats
the order as fresh: it returns the order and lines unchanged, saves nothing,
and the result does not depend on the manager (no capability invoked).  At
the boundary `now = expiration` the order is treated as stale instead (see
the counterexample). -/
theorem C5_fresh_requires_strict_inequality (m : PluginsManager) (now ttl : ℤ)
    (order : Order) (lines : List OrderLine)
    (hed : order.status ∈ ORDER_EDITABLE_STATUS)
    (hfresh : now < order.price_expiration_for_unconfirmed) :
    fetch_order_prices_if_expired m now ttl order lines false
      = .ok (order, lines, false) := by
  unfold fetch_order_prices_if_expired
  rw [if_neg (not_not_intro hed), if_pos ⟨rfl, hfresh⟩]

/-- Witness for C5 (amended): an unconfirmed order whose expiration lies
strictly in the future is returned unchanged with nothing saved. -/
theorem C5_witness :
    ({ orderBase with price_expiration_for_unconfirmed := 9 }).status
        ∈ ORDER_EDITABLE_STATUS ∧
    fetch_order_prices_if_expired mgrBase 3 5
        { orderBase with price_expiration_for_unconfirmed := 9 } [lineBase] false
      = .ok ({ orderBase with price_expiration_for_unconfirmed := 9 }, [lineBase], false) :=
  ⟨by decide,
   C5_fresh_requires_strict_inequality mgrBase 3 5
     { orderBase with price_expiration_for_unconfirmed := 9 } [lineBase]
     (by decide) (by decide)⟩

/-- Counterexample to C5 as stated: at the boundary `now = expiration`
(here both 0) the code does NOT treat the order as fresh — the refresh runs,
the saved flag is set and the expiration timestamp is advanced to
`now + ttl`, so fields are modified. -/
theorem C5_counterexample :
    orderBase.price_expiration_for_unconfirmed = 0 ∧
    fetchResultSaved rFetchBase = some true ∧
    (fetchResultOrder rFetchBase).map (fun o => o.price_expiration_for_unconfirmed)
      = some 5 := by
  norm_num [rFetchBase, fetch_order_prices_if_expired, ORDER_EDITABLE_STATUS,
    _recalculate_order_prices, recalcLinesLoop, recalcLine, recalcLineTry,
    lineAfterUnit, lineAfterTotal, recalcShipping, zero_taxed_money,
    _recalculate_order_discounts, reconcileLine, orderBase, lineBase, mgrBase,
    fetchResultSaved, fetchResultOrder,
    money_add_def, taxed_money_add_def, taxed_money_add_money_def, taxed_money_mul_nat_def]

/-- C6: the reconciliation first pass sets, for every line,
`undiscounted_unit_price = unit_price + unit_discount` and sets
`undiscounted_total_price` to that times the quantity when the unit discount
is non-zero, and to the line's total price otherwise — leaving unit price,
total price, tax rate and quantity untouched; on the concrete line with unit
price 8.00, unit discount 2.00 and quantity 3 this yields undiscounted unit
price 10.00 and undiscounted total price 30.00. -/
theorem C6_reconciliation_first_pass :
    (∀ (o : Order) (lines : List OrderLine),
      List.Forall₂ (fun l l' =>
          l'.undiscounted_unit_price = l.unit_price + l.unit_discount ∧
          l'.undiscounted_total_price =
            (if l.unit_discount.amount ≠ 0
             then (l.unit_price + l.unit_discount) * l.quantity
             else l.total_price) ∧
          l'.unit_price = l.unit_price ∧ l'.total_price = l.total_price ∧
          l'.tax_rate = l.tax_rate ∧ l'.quantity = l.quantity)
        lines (_recalculate_order_discounts o lines).2) ∧
    ((_recalculate_order_discounts orderBase [lineBase]).2.map
        (fun l => (l.undiscounted_unit_price, l.undiscounted_total_price)))
      = [(⟨⟨10, "USD"⟩, ⟨10, "USD"⟩⟩, ⟨⟨30, "USD"⟩, ⟨30, "USD"⟩⟩)] := by
  constructor
  · intro o lines
    have h2 : (_recalculate_order_discounts o lines).2 = lines.map reconcileLine := rfl
    rw [h2]
    clear h2
    induction lines with
    | nil => exact List.Forall₂.nil
    | cons l ls ih =>
      exact List.Forall₂.cons ⟨rfl, rfl, rfl, rfl, rfl, rfl⟩ ih
  · norm_num [_recalculate_order_discounts, reconcileLine, orderBase, lineBase,
      money_add_def, taxed_money_add_def, taxed_money_add_money_def, taxed_money_mul_nat_def]

theorem fetchBase_eval :
    fetch_order_prices_if_expired mgrBase 0 5 orderBase [lineBase] false
      = .ok (orderBaseR, [lineBaseF], true) := by
  norm_num [fetch_order_prices_if_expired, ORDER_EDITABLE_STATUS,
    _recalculate_order_prices, recalcLinesLoop, recalcLine, recalcLineTry,
    lineAfterUnit, lineAfterTotal, recalcShipping, zero_taxed_money,
    _recalculate_order_discounts, reconcileLine, orderBase, lineBase, mgrBase,
    orderBaseR, lineBaseR, lineBaseF,
    money_add_def, taxed_money_add_def, taxed_money_add_money_def, taxed_money_mul_nat_def]

/-- C3: when external tax data has an entry for every line being priced,
applying the overlay succeeds and overwrites the order total, the shipping
price (net and gross, reconstructed as amounts tagged with the order's
currency), the shipping tax rate, and every line's unit price, total price
and tax rate with the tax-data values — for arbitrary previously computed
values on the order and lines, i.e. regardless of what the Engine computed. -/
theorem C3_tax_data_overlay_precedence (o : Order) (lines : List OrderLine)
    (td : TaxData)
    (hall : ∀ l ∈ lines, (tax_lines_dict td.lines l.id).isSome) :
    ∃ o' lines', _apply_tax_data o lines td = .ok (o', lines') ∧
      o'.total = create_taxed_money o.currency td.total_net_amount td.total_gross_amount ∧
      o'.shipping_price = create_taxed_money o.currency td.shipping_price_net_amount
        td.shipping_price_gross_amount ∧
      o'.shipping_tax_rate = td.shipping_tax_rate ∧
      List.Forall₂ (fun l l' => ∃ tl, tax_lines_dict td.lines l.id = some tl ∧
        l' = { l with
                unit_price := create_taxed_money o.currency tl.unit_net_amount
                  tl.unit_gross_amount,
                total_price := create_taxed_money o.currency tl.total_net_amount
                  tl.total_gross_amount,
                tax_rate := tl.tax_rate }) lines lines' := by
  obtain ⟨ls', hok, hfa⟩ := apply_tax_lines_all o.currency td.lines lines hall
  have happ : _apply_tax_data o lines td = .ok
      ({ o with
          total := create_taxed_money o.currency td.total_net_amount td.total_gross_amount,
          shipping_price := create_taxed_money o.currency td.shipping_price_net_amount
            td.shipping_price_gross_amount,
          shipping_tax_rate := td.shipping_tax_rate }, ls') := by
    unfold _apply_tax_data
    dsimp only
    rw [hok]
  exact ⟨_, ls', happ, rfl, rfl, rfl, hfa⟩

/-- Witness for C3: tax data covering the single line of the base order is
applied in full over the engine-computed values. -/
theorem C3_witness :
    (∀ l ∈ [lineBase], (tax_lines_dict tdBase.lines l.id).isSome) ∧
    (∃ o' lines', _apply_tax_data orderBase [lineBase] tdBase = .ok (o', lines') ∧
      o'.total = create_taxed_money orderBase.currency tdBase.total_net_amount
        tdBase.total_gross_amount ∧
      o'.shipping_price = create_taxed_money orderBase.currency
        tdBase.shipping_price_net_amount tdBase.shipping_price_gross_amount ∧
      o'.shipping_tax_rate = tdBase.shipping_tax_rate ∧
      List.Forall₂ (fun l l' => ∃ tl, tax_lines_dict tdBase.lines l.id = some tl ∧
        l' = { l with
                unit_price := create_taxed_money orderBase.currency tl.unit_net_amount
                  tl.unit_gross_amount,
                total_price := create_taxed_money orderBase.currency tl.total_net_amount
                  tl.total_gross_amount,
                tax_rate := tl.tax_rate }) [lineBase] lines') :=
  ⟨by intro l hl; rw [List.mem_singleton.mp hl]; rfl,
   C3_tax_data_overlay_precedence orderBase [lineBase] tdBase
     (by intro l hl; rw [List.mem_singleton.mp hl]; rfl)⟩

/-- C4: if a recalculation pass reaches the tax-data overlay with a
non-empty tax-data result that lacks an entry for at least one line being
priced, the whole pass aborts with the lookup error (the line is not
silently skipped) and nothing is persisted — the stored state is unchanged. -/
theorem C4_missing_tax_line_aborts (m : PluginsManager) (now ttl : ℤ)
    (order : Order) (lines : List OrderLine) (force_update : Bool)
    (o2 : Order) (l2 : List OrderLine) (td : TaxData)
    (dbOrder : Order) (dbLines : List OrderLine)
    (hed : order.status ∈ ORDER_EDITABLE_STATUS)
    (hstale : force_update = true ∨ order.price_expiration_for_unconfirmed ≤ now)
    (hrc : _recalculate_order_prices m
        { order with price_expiration_for_unconfirmed := now + ttl } lines
        = .ok (o2, l2))
    (htd : m.get_taxes_for_order o2 = some td)
    (hmiss : ∃ l ∈ l2, tax_lines_dict td.lines l.id = none) :
    fetch_order_prices_if_expired m now ttl order lines force_update
      = .error .keyError ∧
    persistedAfter dbOrder dbLines
        (fetch_order_prices_if_expired m now ttl order lines force_update)
      = (dbOrder, dbLines) := by
  have happ : _apply_tax_data o2 l2 td = .error .keyError := by
    unfold _apply_tax_data
    dsimp only
    rw [apply_tax_lines_missing o2.currency td.lines l2 hmiss]
  have hfetch : fetch_order_prices_if_expired m now ttl order lines force_update
      = .error .keyError := by
    unfold fetch_order_prices_if_expired
    rw [if_neg (not_not_intro hed), if_neg (stale_cond_neg _ _ _ hstale)]
    dsimp only
    simp only [hrc, htd, happ]
  refine ⟨hfetch, ?_⟩
  rw [hfetch]
  rfl

/-- Witness for C4: tax data with no line entries aborts the pass on the
base order and leaves the stored state untouched. -/
theorem C4_witness :
    (∃ l ∈ [lineBaseR], tax_lines_dict tdMiss.lines l.id = none) ∧
    fetch_order_prices_if_expired mgrTdMiss 0 5 orderBase [lineBase] false
      = .error .keyError ∧
    persistedAfter orderBase [lineBase]
        (fetch_order_prices_if_expired mgrTdMiss 0 5 orderBase [lineBase] false)
      = (orderBase, [lineBase]) :=
  ⟨⟨lineBaseR, List.mem_singleton.mpr rfl, rfl⟩,
   C4_missing_tax_line_aborts mgrTdMiss 0 5 orderBase [lineBase] false
     orderBaseR [lineBaseR] tdMiss orderBase [lineBase]
     (by decide) (.inr (by decide))
     (by norm_num [_recalculate_order_prices, recalcLinesLoop, recalcLine,
        recalcLineTry, lineAfterUnit, lineAfterTotal, recalcShipping,
        zero_taxed_money, orderBase, lineBase, mgrTdMiss, mgrBase,
        orderBaseR, lineBaseR,
        money_add_def, taxed_money_add_def, taxed_money_add_money_def,
        taxed_money_mul_nat_def])
     rfl
     ⟨lineBaseR, List.mem_singleton.mpr rfl, rfl⟩⟩

/-- Counterexample to C1 as stated: with external tax data whose order total
(100) is not the sum of its shipping (0) and line (50) figures, the
committed order violates `total = shipping_price + sum of line totals` —
so the invariant does not extend to passes in which tax data was applied. -/
theorem C1_counterexample :
    fetch_order_prices_if_expired mgrTdBad 0 5 orderBase [lineBase] false
      = .ok (orderBadF, [lineBadF], true) ∧
    ¬ orderTotalInvariant orderBase.currency orderBadF [lineBadF] := by
  constructor
  · norm_num [fetch_order_prices_if_expired, ORDER_EDITABLE_STATUS,
      _recalculate_order_prices, recalcLinesLoop, recalcLine, recalcLineTry,
      lineAfterUnit, lineAfterTotal, recalcShipping, zero_taxed_money,
      _recalculate_order_discounts, reconcileLine, orderBase, lineBase,
      mgrTdBad, mgrBase, tdBad, _apply_tax_data, apply_tax_lines,
      tax_lines_dict, create_taxed_money, orderBadF, lineBadF, lineBaseR,
      orderBaseR,
      money_add_def, taxed_money_add_def, taxed_money_add_money_def,
      taxed_money_mul_nat_def]
  · norm_num [orderTotalInvariant, orderBadF, lineBadF, lineBaseR, orderBaseR,
      orderBase, zero_taxed_money,
      money_add_def, taxed_money_add_def, taxed_money_add_money_def]

/-- C1 (amended): after every committing recalculation pass in which no
external tax data was returned and the order carries no manual order-level
discount, the committed order's total equals its shipping price plus the sum
of the committed lines' total prices (folded from the zero seed in the
order's currency).  The equality holds unconditionally at the end of the
engine pass; external tax data overwrites total, shipping and line totals
verbatim (so it survives only if the tax data itself is additive), and
manual discounts lower the total without touching line totals. -/
theorem C1_total_invariant_amended (m : PluginsManager) (now ttl : ℤ)
    (order : Order) (lines : List OrderLine) (force_update : Bool)
    (o' : Order) (l' : List OrderLine)
    (hnotd : ∀ o, m.get_taxes_for_order o = none)
    (hnodisc : order.discounts.filter (fun d => d.type = OrderDiscountType.manual) = [])
    (h : fetch_order_prices_if_expired m now ttl order lines force_update
          = .ok (o', l', true)) :
    orderTotalInvariant order.currency o' l' := by
  unfold fetch_order_prices_if_expired at h
  split at h
  · simp only [Except.ok.injEq, Prod.mk.injEq] at h
    exact Bool.noConfusion h.2.2
  · split at h
    · simp only [Except.ok.injEq, Prod.mk.injEq] at h
      exact Bool.noConfusion h.2.2
    · dsimp only at h
      cases hrc : _recalculate_order_prices m
          { order with price_expiration_for_unconfirmed := now + ttl } lines with
      | error e => rw [hrc] at h; exact Except.noConfusion h
      | ok p2 =>
        rcases p2 with ⟨o2, l2⟩
        simp only [hrc, hnotd o2] at h
        obtain ⟨hfa, hship, hshiprate, hst, hcur, hexp, hdisc, htot⟩ :=
          recalc_prices_spec m _ o2 lines l2 hrc
        obtain ⟨hl4, _, _, _, _, hid⟩ := recalc_discounts_spec o2 l2
        have hmanual : o2.discounts.filter
            (fun d => d.type = OrderDiscountType.manual) = [] := by
          rw [hdisc]; exact hnodisc
        simp only [Except.ok.injEq, Prod.mk.injEq] at h
        obtain ⟨h1, h2, _⟩ := h
        rw [← h1, ← h2, hid hmanual, hl4]
        unfold orderTotalInvariant
        rw [reconcile_foldl_total]
        exact htot

/-- Witness for C1 (amended): the base scenario (no tax data, no discounts)
commits a state satisfying the invariant. -/
theorem C1_witness :
    orderBase.discounts.filter (fun d => d.type = OrderDiscountType.manual) = [] ∧
    orderTotalInvariant orderBase.currency orderBaseR [lineBaseF] :=
  ⟨rfl,
   C1_total_invariant_amended mgrBase 0 5 orderBase [lineBase] false
     orderBaseR [lineBaseF] (fun _ => rfl) rfl fetchBase_eval⟩

/-- C2 (amended): when a pricing call for a line raises the designated tax
error, the line keeps the values it had at the moment of the raise: if the
FIRST call (unit price) fails, every field is unchanged; if the SECOND call
(total price) fails after a successful unit call, the unit-price fields keep
their new values while the total-price fields and the tax rate keep their
previous values; if the THIRD call (tax rate) fails after unit and total
succeeded, all four price fields keep their new values and only the tax rate
keeps its previous value.  In every case the error is swallowed (the pass
returns successfully), each line's result depends only on that line, and the
shipping figures come from the shipping calls on the order alone — so the
other lines and shipping are unaffected. -/
theorem C2_tax_error_keeps_line_as_of_raise :
    (∀ (m : PluginsManager) (o : Order) (l : OrderLine),
        l.hasVariant = true →
        m.calculate_order_line_unit o l = .error .taxError →
        recalcLine m o l = .ok l) ∧
    (∀ (m : PluginsManager) (o : Order) (l : OrderLine)
        (lu : OrderTaxedPricesData),
        l.hasVariant = true →
        m.calculate_order_line_unit o l = .ok lu →
        m.calculate_order_line_total o (lineAfterUnit l lu) = .error .taxError →
        recalcLine m o l = .ok (lineAfterUnit l lu)) ∧
    (∀ (m : PluginsManager) (o : Order) (l : OrderLine)
        (lu lt : OrderTaxedPricesData),
        l.hasVariant = true →
        m.calculate_order_line_unit o l = .ok lu →
        m.calculate_order_line_total o (lineAfterUnit l lu) = .ok lt →
        m.get_order_line_tax_rate o (lineAfterTotal (lineAfterUnit l lu) lt)
            lu.undiscounted_price = .error .taxError →
        recalcLine m o l = .ok (lineAfterTotal (lineAfterUnit l lu) lt)) ∧
    (∀ (m : PluginsManager) (o o' : Order) (lines lines' : List OrderLine),
        _recalculate_order_prices m o lines = .ok (o', lines') →
        List.Forall₂ (fun l l' => recalcLine m o l = .ok l') lines lines' ∧
        o'.shipping_price = (recalcShipping m o).1.shipping_price ∧
        o'.shipping_tax_rate = (recalcShipping m o).1.shipping_tax_rate) := by
  refine ⟨?_, ?_, ?_, ?_⟩
  · intro m o l h1 h2
    simp [recalcLine, recalcLineTry, h1, h2]
  · intro m o l lu h1 h2 h3
    simp [recalcLine, recalcLineTry, h1, h2, h3]
  · intro m o l lu lt h1 h2 h3 h4
    simp [recalcLine, recalcLineTry, h1, h2, h3, h4]
  · intro m o o' lines lines' h
    obtain ⟨hfa, hship, hrate, _⟩ := recalc_prices_spec m o o' lines lines' h
    exact ⟨hfa, hship, hrate⟩

/-- Witness for C2 (amended): under `mgrC2` the tax-rate call fails after
unit and total succeeded, and the line keeps the new prices and its old tax
rate with the error swallowed; under `mgrTotalFail` the total call fails
after a successful unit call, and the line keeps the new unit prices and its
old totals and tax rate, again with the error swallowed. -/
theorem C2_witness :
    lineBase.hasVariant = true ∧
    recalcLine mgrC2 orderBase lineBase
      = .ok (lineAfterTotal (lineAfterUnit lineBase luC2) ltC2) ∧
    recalcLine mgrTotalFail orderBase lineBase
      = .ok (lineAfterUnit lineBase luC2) :=
  ⟨rfl,
   C2_tax_error_keeps_line_as_of_raise.2.2.1 mgrC2 orderBase lineBase luC2 ltC2
     rfl rfl rfl rfl,
   C2_tax_error_keeps_line_as_of_raise.2.1 mgrTotalFail orderBase lineBase luC2
     rfl rfl rfl⟩

/-- Counterexample to C2 as stated: under `mgrC2` the tax-rate call for the
line raises the tax error, yet the line's stored unit price after the pass
is the newly computed 5.00, not the previous 8.00 — the fields assigned
before the raise are NOT left as they were before the pass. -/
theorem C2_counterexample :
    (recalcResultLines (_recalculate_order_prices mgrC2 orderBase [lineBase])).map
        (fun ls => ls.map (fun l => l.unit_price))
      = some [⟨⟨5, "USD"⟩, ⟨5, "USD"⟩⟩] ∧
    lineBase.unit_price = ⟨⟨8, "USD"⟩, ⟨8, "USD"⟩⟩ ∧
    (⟨⟨5, "USD"⟩, ⟨5, "USD"⟩⟩ : TaxedMoney) ≠ ⟨⟨8, "USD"⟩, ⟨8, "USD"⟩⟩ := by
  refine ⟨?_, rfl, by norm_num⟩
  norm_num [_recalculate_order_prices, recalcLinesLoop, recalcLine, recalcLineTry,
    lineAfterUnit, lineAfterTotal, recalcShipping, zero_taxed_money,
    orderBase, lineBase, mgrC2, mgrBase, recalcResultLines,
    money_add_def, taxed_money_add_def, taxed_money_add_money_def]

/-- C7: for an editable order refreshed at `now1` (stale at that moment), a
second call at any `now2` before `now1 + ttl`, without force, returns
exactly the state committed by the first call, saves nothing, and gives the
same result for every manager — no pricing or tax capability is invoked —
because the first call set the expiration to `now1 + ttl` at the start of
its refresh. -/
theorem C7_second_call_is_fresh (m1 m2 : PluginsManager) (now1 now2 ttl : ℤ)
    (order : Order) (lines : List OrderLine)
    (o1 : Order) (l1 : List OrderLine) (s : Bool)
    (hed : order.status ∈ ORDER_EDITABLE_STATUS)
    (hstale : order.price_expiration_for_unconfirmed ≤ now1)
    (h1 : fetch_order_prices_if_expired m1 now1 ttl order lines false
          = .ok (o1, l1, s))
    (h2 : now2 < now1 + ttl) :
    fetch_order_prices_if_expired m2 now2 ttl o1 l1 false = .ok (o1, l1, false) := by
  obtain ⟨hs, hst, hexp⟩ :=
    fetch_stale_shape m1 now1 ttl order lines false o1 l1 s hed (.inr hstale) h1
  unfold fetch_order_prices_if_expired
  rw [if_neg (not_not_intro (by rw [hst]; exact hed))]
  rw [if_pos ⟨rfl, by rw [hexp]; exact h2⟩]

/-- Witness for C7: after the base refresh at time 0 with TTL 5, a second
call at time 3 under a different manager returns the committed state
unchanged without saving. -/
theorem C7_witness :
    fetch_order_prices_if_expired mgrC2 3 5 orderBaseR [lineBaseF] false
      = .ok (orderBaseR, [lineBaseF], false) :=
  C7_second_call_is_fresh mgrBase mgrC2 0 3 5 orderBase [lineBase]
    orderBaseR [lineBaseF] true (by decide) (by decide) fetchBase_eval (by decide)

/-- C9: `order_total` returns the refreshed order's total quantized to the
currency captured from the order, whenever the orchestrator returns; in
particular a stored net/gross amount of 19.995 in the two-decimal currency
is returned as 20.00 (ties rounded to even, as by Decimal quantization). -/
theorem C9_order_total_quantized :
    (∀ (m : PluginsManager) (now ttl : ℤ) (order : Order) (lines : List OrderLine)
        (force_update : Bool) (o' : Order) (l' : List OrderLine) (s : Bool),
        fetch_order_prices_if_expired m now ttl order lines force_update
          = .ok (o', l', s) →
        order_total m now ttl order lines force_update
          = .ok (quantize_price o'.total order.currency)) ∧
    order_total mgrBase 0 5 orderQ [] false
      = .ok ⟨⟨20, "USD"⟩, ⟨20, "USD"⟩⟩ := by
  have key : ∀ (m : PluginsManager) (now ttl : ℤ) (order : Order)
      (lines : List OrderLine) (force_update : Bool) (o' : Order)
      (l' : List OrderLine) (s : Bool),
      fetch_order_prices_if_expired m now ttl order lines force_update
        = .ok (o', l', s) →
      order_total m now ttl order lines force_update
        = .ok (quantize_price o'.total order.currency) := by
    intro m now ttl order lines force_update o' l' s h
    unfold order_total
    simp only [h]
  refine ⟨key, ?_⟩
  have h0 : fetch_order_prices_if_expired mgrBase 0 5 orderQ [] false
      = .ok (orderQ, [], false) := rfl
  rw [key mgrBase 0 5 orderQ [] false orderQ [] false h0]
  have hcf : get_currency_fraction "USD" = 2 := rfl
  have hfloor : ⌊(19995 : ℚ) / 1000 * 10 ^ 2⌋ = 1999 := by norm_num
  have hround : roundHalfEven ((19995 : ℚ) / 1000 * 10 ^ 2) = 2000 := by
    simp only [roundHalfEven, hfloor]
    norm_num
  have hq : quantize_price orderQ.total orderQ.currency
      = ⟨⟨20, "USD"⟩, ⟨20, "USD"⟩⟩ := by
    simp only [quantize_price, quantize_amount, orderQ, orderBase, hcf, hround]
    norm_num
  rw [hq]

/-- Witness for C9: the quantization relation applied to the non-editable
order with the 19.995 total. -/
theorem C9_witness :
    order_total mgrBase 0 5 orderQ [] false
      = .ok (quantize_price orderQ.total orderQ.currency) :=
  C9_order_total_quantized.1 mgrBase 0 5 orderQ [] false orderQ [] false rfl

/-- C10: the engine catches only the designated tax error — it never raises
that error to its caller — and any other exception from a pricing call
propagates out of the engine pass and out of the orchestrator, which then
persists nothing: the stored state is unchanged. -/
theorem C10_other_exceptions_propagate :
    (∀ (m : PluginsManager) (o : Order) (lines : List OrderLine),
        _recalculate_order_prices m o lines ≠ .error .taxError) ∧
    (∀ (m : PluginsManager) (now ttl : ℤ) (order : Order) (lines : List OrderLine)
        (force_update : Bool) (e : CalcErr) (dbOrder : Order) (dbLines : List OrderLine),
        order.status ∈ ORDER_EDITABLE_STATUS →
        (force_update = true ∨ order.price_expiration_for_unconfirmed ≤ now) →
        _recalculate_order_prices m
            { order with price_expiration_for_unconfirmed := now + ttl } lines
          = .error e →
        fetch_order_prices_if_expired m now ttl order lines force_update = .error e ∧
        persistedAfter dbOrder dbLines
            (fetch_order_prices_if_expired m now ttl order lines force_update)
          = (dbOrder, dbLines)) := by
  constructor
  · exact fun m o lines => recalc_prices_not_taxError m o lines
  · intro m now ttl order lines force_update e dbOrder dbLines hed hstale hrc
    have hfetch : fetch_order_prices_if_expired m now ttl order lines force_update
        = .error e := by
      unfold fetch_order_prices_if_expired
      rw [if_neg (not_not_intro hed), if_neg (stale_cond_neg _ _ _ hstale)]
      dsimp only
      simp only [hrc]
    refine ⟨hfetch, ?_⟩
    rw [hfetch]
    rfl

/-- Witness for C10: a shipping call raising a non-tax exception aborts the
whole pass with that exception and the stored state is untouched. -/
theorem C10_witness :
    fetch_order_prices_if_expired mgrExn 0 5 orderBase [lineBase] false
      = .error .exn ∧
    persistedAfter orderBase [lineBase]
        (fetch_order_prices_if_expired mgrExn 0 5 orderBase [lineBase] false)
      = (orderBase, [lineBase]) :=
  C10_other_exceptions_propagate.2 mgrExn 0 5 orderBase [lineBase] false .exn
    orderBase [lineBase] (by decide) (.inr (by decide))
    (by norm_num [_recalculate_order_prices, recalcLinesLoop, recalcLine,
       recalcLineTry, lineAfterUnit, lineAfterTotal, recalcShipping,
       zero_taxed_money, orderBase, lineBase, mgrExn, mgrBase,
       money_add_def, taxed_money_add_def, taxed_money_add_money_def])

end Saleor
